import Mathlib

set_option linter.unusedVariables false

/-!
Shallow embedding of `nengo/spa/module.py`: the SPA `Module` class with its
child-module registry, input/output port maps, vocabulary map, registration
interception (`__setattr__` / `__set_module`), scope-close structural
validation (`__exit__`) and hierarchical name resolution
(`get_module`, `get_module_input`, `get_module_output`, enumerations and
vocabulary accessors).

Modelling conventions:
- Python dicts become association lists in insertion order; lookup finds the
  first matching key, update replaces the value in place, a fresh key is
  appended at the end (Python 3.7+ dict semantics).
- Python object identity is modelled by a `uid : Nat` field on `Module`
  (`frozenset` membership in `__exit__` compares object identity).
- Exceptions become `Except` / `Option` results; `SpaModuleError` becomes the
  inductive `SpaError`, one constructor per raise site, carrying the payload
  that the corresponding format string interpolates.
- `warnings.warn(DeprecationWarning(...))` becomes a `Nat` counter of emitted
  deprecation diagnostics, threaded through resolution results.
-/

namespace Spa

/-- Association-list lookup: value of the first pair whose key matches.
Models Python dict lookup `d[k]` / `k in d`. -/
def afind {κ α : Type} [DecidableEq κ] : List (κ × α) → κ → Option α
  | [], _ => none
  | (k, v) :: rest, key => if k = key then some v else afind rest key

/-- Association-list insert-or-update: models Python dict assignment
`d[k] = v` — an existing key keeps its position, a fresh key is appended. -/
def aupsert {κ α : Type} [DecidableEq κ] : List (κ × α) → κ → α → List (κ × α)
  | [], key, v => [(key, v)]
  | (k, v') :: rest, key, v =>
      if k = key then (k, v) :: rest else (k, v') :: aupsert rest key v

/-- A port's vocabulary binding: either a raw integer dimension
(`isinstance(v, int)` in the source) or a resolved vocabulary handle. -/
inductive VocabBinding : Type where
  | dim (d : Nat) : VocabBinding
  | vocab (handle : Nat) : VocabBinding
deriving DecidableEq, Repr

/-- A port: an `(object, vocabulary-binding)` pair, the values of the
`inputs` / `outputs` dicts of a module. The object (Node or Ensemble) is
opaque to this core and modelled by an identifier. -/
structure Port : Type where
  obj : Nat
  binding : VocabBinding
deriving DecidableEq, Repr

/-- Modelled from the spec: `VocabularyMap` (class `nengo.spa.vocab`, not part
of the analysed source) — a dimension-to-vocabulary registry with
get-or-create semantics. Vocabulary handles are identity-compared opaque
objects, modelled by `Nat` identifiers drawn from a fresh counter. -/
structure VocabularyMap : Type where
  entries : List (Nat × Nat)
  freshHandle : Nat
deriving DecidableEq, Repr

/-- The handle registered for dimension `d`, if any. -/
def VocabularyMap.lookupDim (vm : VocabularyMap) (d : Nat) : Option Nat :=
  afind vm.entries d

/-- Modelled from the spec: `VocabularyMap.get_or_create(d)` — return the
cached handle for `d` if present, otherwise create a fresh handle, cache it
and return it. -/
def VocabularyMap.get_or_create (vm : VocabularyMap) (d : Nat) :
    Nat × VocabularyMap :=
  match afind vm.entries d with
  | some h => (h, vm)
  | none =>
      (vm.freshHandle,
       ⟨vm.entries ++ [(d, vm.freshHandle)], vm.freshHandle + 1⟩)

/-- The `SpaModuleError` raise sites of the source, one constructor per site,
carrying the data interpolated into the message. -/
inductive SpaError : Type where
  /-- Raised by `__setattr__`: "Cannot re-assign module-attribute KEY ...". -/
  | reassignment (key : String) : SpaError
  /-- Raised by `get_module`: "Could not find module NAME.". -/
  | moduleNotFound (name : String) : SpaError
  /-- Raised by `get_module_input`: "Could not find module input NAME.". -/
  | inputNotFound (name : String) : SpaError
  /-- Raised by `get_module_output`: "Could not find module output NAME.". -/
  | outputNotFound (name : String) : SpaError
  /-- Raised by `__exit__`: "NET must be set as an attribute of a SPA
  network" — carries the identity of the offending sub-network. -/
  | mustBeSet (netUid : Nat) : SpaError
deriving DecidableEq, Repr

/-- An exception travelling through `__exit__`: either a `SpaModuleError`
of this core, or any other in-flight exception (opaque identifier). -/
inductive Exc : Type where
  | spa (e : SpaError) : Exc
  | other (id_ : Nat) : Exc
deriving DecidableEq, Repr

/-- The SPA `Module`: label, vocabulary map, child-module registry
(`self._modules`), port maps (`self.inputs`, `self.outputs`) and the base
network's list of structurally nested sub-networks (`self.networks`), where
a nested network is either a plain (non-module) network, opaque to this
core, or itself a `Module`. `uid` models Python object identity. -/
inductive Module : Type where
  | mk (uid : Nat) (label : Option String) (vocabs : VocabularyMap)
       (modules : List (String × Module))
       (inputs : List (String × Port))
       (outputs : List (String × Port))
       (networks : List (Nat ⊕ Module)) : Module

/-- Object identity of the module. -/
def Module.uid : Module → Nat
  | .mk u _ _ _ _ _ _ => u

/-- The module's label. -/
def Module.label : Module → Option String
  | .mk _ l _ _ _ _ _ => l

/-- The module's vocabulary map (`self.vocabs`). -/
def Module.vocabs : Module → VocabularyMap
  | .mk _ _ v _ _ _ _ => v

/-- The child-module registry (`self._modules`). -/
def Module.modules : Module → List (String × Module)
  | .mk _ _ _ m _ _ _ => m

/-- The input-port map (`self.inputs`). -/
def Module.inputs : Module → List (String × Port)
  | .mk _ _ _ _ i _ _ => i

/-- The output-port map (`self.outputs`). -/
def Module.outputs : Module → List (String × Port)
  | .mk _ _ _ _ _ o _ => o

/-- The base network's nested sub-network list (`self.networks`). -/
def Module.networks : Module → List (Nat ⊕ Module)
  | .mk _ _ _ _ _ _ n => n

/-- Replace the label. -/
def Module.withLabel : Module → Option String → Module
  | .mk u _ v m i o n, l => .mk u l v m i o n

/-- Replace the vocabulary map. -/
def Module.withVocabs : Module → VocabularyMap → Module
  | .mk u l _ m i o n, v => .mk u l v m i o n

/-- Replace the child-module registry. -/
def Module.withModules : Module → List (String × Module) → Module
  | .mk u l v _ i o n, m => .mk u l v m i o n

/-- Replace the input-port map. -/
def Module.withInputs : Module → List (String × Port) → Module
  | .mk u l v m _ o n, i => .mk u l v m i o n

/-- Replace the output-port map. -/
def Module.withOutputs : Module → List (String × Port) → Module
  | .mk u l v m i _ n, o => .mk u l v m i o n

/-- Split a character list at the first occurrence of `sep`:
`some (before, after)` when `sep` occurs, `none` otherwise. -/
def splitFirstAux (sep : Char) : List Char → Option (List Char × List Char)
  | [] => none
  | c :: cs =>
      if c = sep then some ([], cs)
      else
        match splitFirstAux sep cs with
        | some (l, r) => some (c :: l, r)
        | none => none

/-- Python `name.split('.', 1)` restricted to its two uses in the source:
`some (head, tail)` when the string contains a dot (`len(components) > 1`),
`none` when it is a single segment. -/
def splitDot (s : String) : Option (String × String) :=
  match splitFirstAux '.' s.data with
  | some (l, r) => some (⟨l⟩, ⟨r⟩)
  | none => none

/-- Python `name.rsplit('_', 1)`: split at the last underscore,
`some (head, tail)` when the string contains one, `none` otherwise. -/
def splitLastUnderscore (s : String) : Option (String × String) :=
  match splitFirstAux '_' s.data.reverse with
  | some (tailRev, headRev) => some (⟨headRev.reverse⟩, ⟨tailRev.reverse⟩)
  | none => none

theorem afind_sizeOf_lt {l : List (String × Module)} {k : String}
    {m : Module} (h : afind l k = some m) : sizeOf m < sizeOf l := by
  induction l with
  | nil => simp [afind] at h
  | cons p rest ih =>
      obtain ⟨k', v⟩ := p
      by_cases hk : k' = k
      · simp [afind, hk] at h
        subst h
        simp
        omega
      · simp [afind, hk] at h
        have := ih h
        simp
        omega

theorem modules_sizeOf_lt (m : Module) : sizeOf m.modules < sizeOf m := by
  cases m with
  | mk u l v mods i o n =>
      simp [Module.modules]
      omega

theorem afind_modules_sizeOf_lt {m : Module} {k : String} {c : Module}
    (h : afind m.modules k = some c) : sizeOf c < sizeOf m :=
  Nat.lt_trans (afind_sizeOf_lt h) (modules_sizeOf_lt m)

/-- `Module.get_module(name, strip_output)`: dotted-path module resolution.
A multi-segment path recurses into the named direct child; on a single
segment, return the named child, or (with `strip` set) the module itself
when the name matches one of its own ports; a lookup miss at the current
level raises `SpaModuleError` carrying the name passed to this call. -/
def Module.get_module (m : Module) (name : String) (strip : Bool) :
    Except SpaError Module :=
  match splitDot name with
  | some (head, tail) =>
      match h : afind m.modules head with
      | some child => child.get_module tail strip
      | none => .error (.moduleNotFound name)
  | none =>
      match afind m.modules name with
      | some child => .ok child
      | none =>
          if strip && ((afind m.inputs name).isSome
                        || (afind m.outputs name).isSome)
          then .ok m
          else .error (.moduleNotFound name)
termination_by sizeOf m
decreasing_by exact afind_modules_sizeOf_lt h

/-- `Module.get_module_input(name)`: resolve a name to an input port.
Returns the port together with the number of deprecation diagnostics emitted
during the call.  Strategy order on a single segment: own input port, then
bare child name (recursing with `'default'`), then the deprecated
last-underscore split; a `KeyError`-style miss at the current level raises
`SpaModuleError` carrying the name passed to this call, while an
`SpaModuleError` from a recursive call propagates unchanged. -/
def Module.get_module_input (m : Module) (name : String) :
    Except SpaError (Port × Nat) :=
  match splitDot name with
  | some (head, tail) =>
      match h : afind m.modules head with
      | some child => child.get_module_input tail
      | none => .error (.inputNotFound name)
  | none =>
      match afind m.inputs name with
      | some p => .ok (p, 0)
      | none =>
          match h : afind m.modules name with
          | some child => child.get_module_input "default"
          | none =>
              match splitLastUnderscore name with
              | some (head, tail) =>
                  match h : afind m.modules head with
                  | some child =>
                      match child.get_module_input tail with
                      | .ok (p, w) => .ok (p, w + 1)
                      | .error e => .error e
                  | none => .error (.inputNotFound name)
              | none => .error (.inputNotFound name)
termination_by sizeOf m
decreasing_by
  · exact afind_modules_sizeOf_lt h
  · exact afind_modules_sizeOf_lt h
  · exact afind_modules_sizeOf_lt h

/-- `Module.get_module_output(name)`: resolve a name to an output port,
symmetric to `Module.get_module_input`. -/
def Module.get_module_output (m : Module) (name : String) :
    Except SpaError (Port × Nat) :=
  match splitDot name with
  | some (head, tail) =>
      match h : afind m.modules head with
      | some child => child.get_module_output tail
      | none => .error (.outputNotFound name)
  | none =>
      match afind m.outputs name with
      | some p => .ok (p, 0)
      | none =>
          match h : afind m.modules name with
          | some child => child.get_module_output "default"
          | none =>
              match splitLastUnderscore name with
              | some (head, tail) =>
                  match h : afind m.modules head with
                  | some child =>
                      match child.get_module_output tail with
                      | .ok (p, w) => .ok (p, w + 1)
                      | .error e => .error e
                  | none => .error (.outputNotFound name)
              | none => .error (.outputNotFound name)
termination_by sizeOf m
decreasing_by
  · exact afind_modules_sizeOf_lt h
  · exact afind_modules_sizeOf_lt h
  · exact afind_modules_sizeOf_lt h

/-- The port-resolution loops of `__set_module`: for each port of the dict,
in iteration order, a raw integer binding `d` is replaced by
`self.vocabs.get_or_create(d)` — `self.vocabs` being the parent's map,
threaded through the loop — and any other binding is left unchanged. -/
def resolvePortList (vm : VocabularyMap) :
    List (String × Port) → List (String × Port) × VocabularyMap
  | [] => ([], vm)
  | (k, p) :: rest =>
      match p.binding with
      | .dim d =>
          let res := vm.get_or_create d
          let tail := resolvePortList res.2 rest
          ((k, ⟨p.obj, .vocab res.1⟩) :: tail.1, tail.2)
      | .vocab _ =>
          let tail := resolvePortList vm rest
          ((k, p) :: tail.1, tail.2)

/-- The observation made by the `module.on_add(self)` hook call at the end of
`__set_module`: the receiver (the child, as resolved at call time) and the
argument (the parent, as it is at call time). The base class hook is a
no-op, so the registration post-state is exactly the state at the hook. -/
structure OnAddCall : Type where
  parent : Module
  child : Module

/-- `Module.__set_module(key, module)`: set the child's label if unset,
insert the child into `self._modules[key]` (the registry aliases the child
object, so the subsequent in-place port resolution is visible through the
registry entry), resolve raw-integer bindings of the child's inputs then
outputs through the parent's vocabulary map, and finally call
`module.on_add(self)`. Returns the parent post-state and the hook
observation. -/
def Module.set_module (self : Module) (key : String) (module' : Module) :
    Module × OnAddCall :=
  let child0 :=
    if module'.label = none then module'.withLabel (some key) else module'
  let rin := resolvePortList self.vocabs child0.inputs
  let child1 := child0.withInputs rin.1
  let rout := resolvePortList rin.2 child1.outputs
  let child2 := child1.withOutputs rout.1
  let parent' :=
    (self.withVocabs rout.2).withModules (aupsert self.modules key child2)
  (parent', ⟨parent', child2⟩)

/-- A value assigned to an attribute: a `Module` (triggering registration) or
any non-module value (the ordinary validated-field-write path, whose
field-validation machinery is an external collaborator and out of the
modelled state). -/
inductive AttrValue : Type where
  | mod (m : Module) : AttrValue
  | plain (x : Nat) : AttrValue

/-- `Module.__setattr__(key, value)`: if the attribute `key` currently holds
a `Module` — under the class invariant, exactly when `key` is a registry
key — raise `SpaModuleError` regardless of the new value; otherwise perform
the ordinary write and, when the value is a `Module`, run `__set_module`.
Returns the parent post-state and the hook observation, if any. -/
def Module.setattr (self : Module) (key : String) (value : AttrValue) :
    Except SpaError (Module × Option OnAddCall) :=
  if (afind self.modules key).isSome then
    .error (.reassignment key)
  else
    match value with
    | .mod m =>
        let res := self.set_module key m
        .ok (res.1, some res.2)
    | .plain _ => .ok (self, none)

/-- The identities of `self._modules.values()` (the `frozenset` built by
`__exit__`; membership there is object identity). -/
def registeredUids : List (String × Module) → List Nat
  | [] => []
  | (_, m) :: rest => m.uid :: registeredUids rest

/-- The loop of `__exit__`: the first entry of `self.networks` that is
module-typed but not identity-present among the registered children. -/
def firstUnregistered (regs : List Nat) :
    List (Nat ⊕ Module) → Option Module
  | [] => none
  | .inl _ :: rest => firstUnregistered regs rest
  | .inr q :: rest =>
      if q.uid ∈ regs then firstUnregistered regs rest else some q

/-- `Module.__exit__(ex_type, ex_value, traceback)`: if an exception is
already propagating, return `False` — the original exception propagates
unchanged and the structural check is skipped; otherwise raise
`SpaModuleError` for the first module-typed nested network that was never
registered as an attribute, and return normally if there is none. The
result is the exception leaving the scope, if any. -/
def Module.exit (m : Module) (exc : Option Exc) : Option Exc :=
  match exc with
  | some e => some e
  | none =>
      match firstUnregistered (registeredUids m.modules) m.networks with
      | some q => some (.spa (.mustBeSet q.uid))
      | none => none

/-- The inner loop of `get_module_inputs` / `get_module_outputs`: the names
yielded for one child's port dict — the child name verbatim for a port named
`"default"`, otherwise `childName + "_" + portName`. -/
def portEnumNames (name : String) : List (String × Port) → List String
  | [] => []
  | (pn, _) :: rest =>
      (if pn = "default" then name else name ++ "_" ++ pn)
        :: portEnumNames name rest

/-- `Module.get_module_inputs()`: enumerate, for each registered child in
registration order, the legacy-form names of its input ports. -/
def Module.get_module_inputs (m : Module) : List String :=
  enum m.modules
where
  /-- Outer loop over `iteritems(self._modules)`. -/
  enum : List (String × Module) → List String
    | [] => []
    | (name, child) :: rest => portEnumNames name child.inputs ++ enum rest

/-- `Module.get_module_outputs()`: enumerate, for each registered child in
registration order, the legacy-form names of its output ports. -/
def Module.get_module_outputs (m : Module) : List String :=
  enum m.modules
where
  /-- Outer loop over `iteritems(self._modules)`. -/
  enum : List (String × Module) → List String
    | [] => []
    | (name, child) :: rest => portEnumNames name child.outputs ++ enum rest

/-- `Module.get_input_vocab(name)`: the vocabulary-binding half of the
resolved input port (deprecation diagnostics propagate). -/
def Module.get_input_vocab (m : Module) (name : String) :
    Except SpaError (VocabBinding × Nat) :=
  match m.get_module_input name with
  | .ok (p, w) => .ok (p.binding, w)
  | .error e => .error e

/-- `Module.get_output_vocab(name)`: the vocabulary-binding half of the
resolved output port (deprecation diagnostics propagate). -/
def Module.get_output_vocab (m : Module) (name : String) :
    Except SpaError (VocabBinding × Nat) :=
  match m.get_module_output name with
  | .ok (p, w) => .ok (p.binding, w)
  | .error e => .error e

/-- State-threaded rendering of `get_module`: every recursive call returns
the (possibly updated) child, which is written back through the registry
entry that aliases it — so any mutation the method performed would be
visible in the second component. Used to state the frame property. -/
def Module.get_module_st (m : Module) (name : String) (strip : Bool) :
    Except SpaError Module × Module :=
  match splitDot name with
  | some (head, tail) =>
      match h : afind m.modules head with
      | some child =>
          let res := child.get_module_st tail strip
          (res.1, m.withModules (aupsert m.modules head res.2))
      | none => (.error (.moduleNotFound name), m)
  | none =>
      match afind m.modules name with
      | some child => (.ok child, m)
      | none =>
          if strip && ((afind m.inputs name).isSome
                        || (afind m.outputs name).isSome)
          then (.ok m, m)
          else (.error (.moduleNotFound name), m)
termination_by sizeOf m
decreasing_by exact afind_modules_sizeOf_lt h

/-- State-threaded rendering of `get_module_input`, analogous to
`Module.get_module_st`. -/
def Module.get_module_input_st (m : Module) (name : String) :
    Except SpaError (Port × Nat) × Module :=
  match splitDot name with
  | some (head, tail) =>
      match h : afind m.modules head with
      | some child =>
          let res := child.get_module_input_st tail
          (res.1, m.withModules (aupsert m.modules head res.2))
      | none => (.error (.inputNotFound name), m)
  | none =>
      match afind m.inputs name with
      | some p => (.ok (p, 0), m)
      | none =>
          match h : afind m.modules name with
          | some child =>
              let res := child.get_module_input_st "default"
              (res.1, m.withModules (aupsert m.modules name res.2))
          | none =>
              match splitLastUnderscore name with
              | some (head, tail) =>
                  match h : afind m.modules head with
                  | some child =>
                      let res := child.get_module_input_st tail
                      let m' := m.withModules (aupsert m.modules head res.2)
                      match res.1 with
                      | .ok (p, w) => (.ok (p, w + 1), m')
                      | .error e => (.error e, m')
                  | none => (.error (.inputNotFound name), m)
              | none => (.error (.inputNotFound name), m)
termination_by sizeOf m
decreasing_by
  · exact afind_modules_sizeOf_lt h
  · exact afind_modules_sizeOf_lt h
  · exact afind_modules_sizeOf_lt h

/-- State-threaded rendering of `get_module_output`, analogous to
`Module.get_module_st`. -/
def Module.get_module_output_st (m : Module) (name : String) :
    Except SpaError (Port × Nat) × Module :=
  match splitDot name with
  | some (head, tail) =>
      match h : afind m.modules head with
      | some child =>
          let res := child.get_module_output_st tail
          (res.1, m.withModules (aupsert m.modules head res.2))
      | none => (.error (.outputNotFound name), m)
  | none =>
      match afind m.outputs name with
      | some p => (.ok (p, 0), m)
      | none =>
          match h : afind m.modules name with
          | some child =>
              let res := child.get_module_output_st "default"
              (res.1, m.withModules (aupsert m.modules name res.2))
          | none =>
              match splitLastUnderscore name with
              | some (head, tail) =>
                  match h : afind m.modules head with
                  | some child =>
                      let res := child.get_module_output_st tail
                      let m' := m.withModules (aupsert m.modules head res.2)
                      match res.1 with
                      | .ok (p, w) => (.ok (p, w + 1), m')
                      | .error e => (.error e, m')
                  | none => (.error (.outputNotFound name), m)
              | none => (.error (.outputNotFound name), m)
termination_by sizeOf m
decreasing_by
  · exact afind_modules_sizeOf_lt h
  · exact afind_modules_sizeOf_lt h
  · exact afind_modules_sizeOf_lt h

/-- State-threaded rendering of `get_input_vocab`. -/
def Module.get_input_vocab_st (m : Module) (name : String) :
    Except SpaError (VocabBinding × Nat) × Module :=
  let res := m.get_module_input_st name
  (match res.1 with
   | .ok (p, w) => .ok (p.binding, w)
   | .error e => .error e, res.2)

/-- State-threaded rendering of `get_output_vocab`. -/
def Module.get_output_vocab_st (m : Module) (name : String) :
    Except SpaError (VocabBinding × Nat) × Module :=
  let res := m.get_module_output_st name
  (match res.1 with
   | .ok (p, w) => .ok (p.binding, w)
   | .error e => .error e, res.2)

theorem afind_aupsert_self {κ α : Type} [DecidableEq κ]
    (l : List (κ × α)) (k : κ) (v : α) : afind (aupsert l k v) k = some v := by
  induction l with
  | nil => simp [aupsert, afind]
  | cons p rest ih =>
      obtain ⟨k', v'⟩ := p
      by_cases hk : k' = k
      · simp [aupsert, hk, afind]
      · simp [aupsert, hk, afind, ih]

theorem aupsert_of_afind {κ α : Type} [DecidableEq κ]
    {l : List (κ × α)} {k : κ} {v : α} (h : afind l k = some v) :
    aupsert l k v = l := by
  induction l with
  | nil => simp [afind] at h
  | cons p rest ih =>
      obtain ⟨k', v'⟩ := p
      by_cases hk : k' = k
      · simp [afind, hk] at h
        simp [aupsert, hk, h]
      · simp [afind, hk] at h
        simp [aupsert, hk, ih h]

theorem afind_append_of_some {κ α : Type} [DecidableEq κ]
    {l l' : List (κ × α)} {k : κ} {v : α} (h : afind l k = some v) :
    afind (l ++ l') k = some v := by
  induction l with
  | nil => simp [afind] at h
  | cons p rest ih =>
      obtain ⟨k', v'⟩ := p
      by_cases hk : k' = k
      · simp [afind, hk] at h ⊢
        exact h
      · simp [afind, hk] at h ⊢
        exact ih h

theorem afind_append_of_none {κ α : Type} [DecidableEq κ]
    {l l' : List (κ × α)} {k : κ} (h : afind l k = none) :
    afind (l ++ l') k = afind l' k := by
  induction l with
  | nil => simp
  | cons p rest ih =>
      obtain ⟨k', v'⟩ := p
      by_cases hk : k' = k
      · simp [afind, hk] at h
      · simp [afind, hk] at h ⊢
        exact ih h

theorem splitFirstAux_of_not_mem {sep : Char} {l : List Char}
    (h : sep ∉ l) : splitFirstAux sep l = none := by
  induction l with
  | nil => rfl
  | cons c cs ih =>
      simp only [List.mem_cons] at h
      push_neg at h
      simp [splitFirstAux, Ne.symm h.1, ih h.2]

theorem splitFirstAux_append {sep : Char} {l r : List Char}
    (h : sep ∉ l) : splitFirstAux sep (l ++ sep :: r) = some (l, r) := by
  induction l with
  | nil => simp [splitFirstAux]
  | cons c cs ih =>
      simp only [List.mem_cons] at h
      push_neg at h
      simp [splitFirstAux, Ne.symm h.1, ih h.2]

theorem string_mk_data (s : String) : (⟨s.data⟩ : String) = s := by
  cases s
  rfl

theorem splitDot_cat (a b : String) (h : '.' ∉ a.data) :
    splitDot (a ++ "." ++ b) = some (a, b) := by
  have hdata : (a ++ "." ++ b).data = a.data ++ '.' :: b.data := by
    simp [String.data_append]
  simp [splitDot, hdata, splitFirstAux_append h, string_mk_data]

theorem splitDot_of_no_dot {s : String} (h : '.' ∉ s.data) :
    splitDot s = none := by
  simp [splitDot, splitFirstAux_of_not_mem h]

theorem splitLastUnderscore_cat (a b : String)
    (h : '_' ∉ b.data) :
    splitLastUnderscore (a ++ "_" ++ b) = some (a, b) := by
  have h' : '_' ∉ b.data.reverse := by
    simpa using h
  have hdata : (a ++ "_" ++ b).data.reverse
      = b.data.reverse ++ '_' :: a.data.reverse := by
    simp [String.data_append]
  simp [splitLastUnderscore, hdata, splitFirstAux_append h', string_mk_data]

theorem splitLastUnderscore_of_no_underscore {s : String}
    (h : '_' ∉ s.data) : splitLastUnderscore s = none := by
  have h' : '_' ∉ s.data.reverse := by simpa using h
  simp [splitLastUnderscore, splitFirstAux_of_not_mem h']

theorem withModules_self (m : Module) : m.withModules m.modules = m := by
  cases m
  rfl

theorem get_module_st_frame (m : Module) (name : String) (strip : Bool) :
    m.get_module_st name strip = (m.get_module name strip, m) := by
  rw [Module.get_module_st.eq_def, Module.get_module.eq_def]
  cases hsd : splitDot name with
  | some pr =>
      obtain ⟨head, tail⟩ := pr
      dsimp only
      split
      next child heq =>
        have ih := get_module_st_frame child tail strip
        simp [ih, aupsert_of_afind heq, withModules_self, heq]
      next heq => simp [heq]
  | none =>
      dsimp only
      split
      next child heq => simp [heq]
      next heq =>
        cases hc : (strip && ((afind m.inputs name).isSome
                    || (afind m.outputs name).isSome)) <;> simp [heq, hc]
termination_by sizeOf m
decreasing_by exact afind_modules_sizeOf_lt (by assumption)

theorem get_module_input_st_frame (m : Module) (name : String) :
    m.get_module_input_st name = (m.get_module_input name, m) := by
  rw [Module.get_module_input_st.eq_def, Module.get_module_input.eq_def]
  cases hsd : splitDot name with
  | some pr =>
      obtain ⟨head, tail⟩ := pr
      dsimp only
      split
      next child heq =>
        have ih := get_module_input_st_frame child tail
        simp [ih, aupsert_of_afind heq, withModules_self, heq]
      next heq => simp [heq]
  | none =>
      cases hi : afind m.inputs name with
      | some p => simp
      | none =>
          dsimp only
          split
          next child heq =>
            have ih := get_module_input_st_frame child "default"
            simp [ih, aupsert_of_afind heq, withModules_self, heq]
          next heq =>
            cases hsu : splitLastUnderscore name with
            | some pr =>
                obtain ⟨head, tail⟩ := pr
                dsimp only
                split
                next child heq2 =>
                  have ih := get_module_input_st_frame child tail
                  simp only [ih, aupsert_of_afind heq2, withModules_self,
                             heq2]
                  cases hres : child.get_module_input tail with
                  | ok pw =>
                      obtain ⟨p, w⟩ := pw
                      simp
                  | error e => simp
                next heq2 => simp [heq2]
            | none => simp
termination_by sizeOf m
decreasing_by
  · exact afind_modules_sizeOf_lt (by assumption)
  · exact afind_modules_sizeOf_lt (by assumption)
  · exact afind_modules_sizeOf_lt (by assumption)

theorem get_module_output_st_frame (m : Module) (name : String) :
    m.get_module_output_st name = (m.get_module_output name, m) := by
  rw [Module.get_module_output_st.eq_def, Module.get_module_output.eq_def]
  cases hsd : splitDot name with
  | some pr =>
      obtain ⟨head, tail⟩ := pr
      dsimp only
      split
      next child heq =>
        have ih := get_module_output_st_frame child tail
        simp [ih, aupsert_of_afind heq, withModules_self, heq]
      next heq => simp [heq]
  | none =>
      cases hi : afind m.outputs name with
      | some p => simp
      | none =>
          dsimp only
          split
          next child heq =>
            have ih := get_module_output_st_frame child "default"
            simp [ih, aupsert_of_afind heq, withModules_self, heq]
          next heq =>
            cases hsu : splitLastUnderscore name with
            | some pr =>
                obtain ⟨head, tail⟩ := pr
                dsimp only
                split
                next child heq2 =>
                  have ih := get_module_output_st_frame child tail
                  simp only [ih, aupsert_of_afind heq2, withModules_self,
                             heq2]
                  cases hres : child.get_module_output tail with
                  | ok pw =>
                      obtain ⟨p, w⟩ := pw
                      simp
                  | error e => simp
                next heq2 => simp [heq2]
            | none => simp
termination_by sizeOf m
decreasing_by
  · exact afind_modules_sizeOf_lt (by assumption)
  · exact afind_modules_sizeOf_lt (by assumption)
  · exact afind_modules_sizeOf_lt (by assumption)

@[simp] theorem uid_withLabel (m : Module) (l : Option String) :
    (m.withLabel l).uid = m.uid := by cases m; rfl

@[simp] theorem uid_withVocabs (m : Module) (v : VocabularyMap) :
    (m.withVocabs v).uid = m.uid := by cases m; rfl

@[simp] theorem uid_withModules (m : Module) (x : List (String × Module)) :
    (m.withModules x).uid = m.uid := by cases m; rfl

@[simp] theorem uid_withInputs (m : Module) (i : List (String × Port)) :
    (m.withInputs i).uid = m.uid := by cases m; rfl

@[simp] theorem uid_withOutputs (m : Module) (o : List (String × Port)) :
    (m.withOutputs o).uid = m.uid := by cases m; rfl

@[simp] theorem modules_withModules (m : Module)
    (x : List (String × Module)) : (m.withModules x).modules = x := by
  cases m; rfl

@[simp] theorem modules_withLabel (m : Module) (l : Option String) :
    (m.withLabel l).modules = m.modules := by cases m; rfl

@[simp] theorem modules_withVocabs (m : Module) (v : VocabularyMap) :
    (m.withVocabs v).modules = m.modules := by cases m; rfl

@[simp] theorem modules_withInputs (m : Module) (i : List (String × Port)) :
    (m.withInputs i).modules = m.modules := by cases m; rfl

@[simp] theorem modules_withOutputs (m : Module) (o : List (String × Port)) :
    (m.withOutputs o).modules = m.modules := by cases m; rfl

@[simp] theorem inputs_withLabel (m : Module) (l : Option String) :
    (m.withLabel l).inputs = m.inputs := by cases m; rfl

@[simp] theorem inputs_withInputs (m : Module) (i : List (String × Port)) :
    (m.withInputs i).inputs = i := by cases m; rfl

@[simp] theorem inputs_withOutputs (m : Module) (o : List (String × Port)) :
    (m.withOutputs o).inputs = m.inputs := by cases m; rfl

@[simp] theorem outputs_withLabel (m : Module) (l : Option String) :
    (m.withLabel l).outputs = m.outputs := by cases m; rfl

@[simp] theorem outputs_withInputs (m : Module) (i : List (String × Port)) :
    (m.withInputs i).outputs = m.outputs := by cases m; rfl

@[simp] theorem outputs_withOutputs (m : Module) (o : List (String × Port)) :
    (m.withOutputs o).outputs = o := by cases m; rfl

@[simp] theorem vocabs_withLabel (m : Module) (l : Option String) :
    (m.withLabel l).vocabs = m.vocabs := by cases m; rfl

@[simp] theorem vocabs_withVocabs (m : Module) (v : VocabularyMap) :
    (m.withVocabs v).vocabs = v := by cases m; rfl

@[simp] theorem vocabs_withModules (m : Module)
    (x : List (String × Module)) : (m.withModules x).vocabs = m.vocabs := by
  cases m; rfl

@[simp] theorem vocabs_withInputs (m : Module) (i : List (String × Port)) :
    (m.withInputs i).vocabs = m.vocabs := by cases m; rfl

@[simp] theorem vocabs_withOutputs (m : Module) (o : List (String × Port)) :
    (m.withOutputs o).vocabs = m.vocabs := by cases m; rfl

theorem get_or_create_lookupDim (vm : VocabularyMap) (d : Nat) :
    ((vm.get_or_create d).2).lookupDim d = some (vm.get_or_create d).1 := by
  unfold VocabularyMap.get_or_create VocabularyMap.lookupDim
  cases h : afind vm.entries d with
  | some hh => simpa using h
  | none => simp [afind_append_of_none h, afind]

theorem get_or_create_mono {vm : VocabularyMap} {d h : Nat}
    (hl : vm.lookupDim d = some h) (d' : Nat) :
    ((vm.get_or_create d').2).lookupDim d = some h := by
  unfold VocabularyMap.get_or_create
  unfold VocabularyMap.lookupDim at hl ⊢
  cases h2 : afind vm.entries d' with
  | some _ => simpa using hl
  | none => simpa using afind_append_of_some hl

theorem resolvePortList_mono {vm : VocabularyMap} {d h : Nat}
    (ps : List (String × Port)) (hl : vm.lookupDim d = some h) :
    ((resolvePortList vm ps).2).lookupDim d = some h := by
  induction ps generalizing vm with
  | nil => simpa [resolvePortList] using hl
  | cons p rest ih =>
      obtain ⟨k, po⟩ := p
      cases hb : po.binding with
      | dim dd =>
          simp only [resolvePortList, hb]
          exact ih (get_or_create_mono hl dd)
      | vocab hh =>
          simp only [resolvePortList, hb]
          exact ih hl

theorem resolvePortList_dim {vm : VocabularyMap} {ps : List (String × Port)}
    {k : String} {o d : Nat} (hf : afind ps k = some ⟨o, .dim d⟩) :
    ∃ h, afind (resolvePortList vm ps).1 k = some ⟨o, .vocab h⟩ ∧
         ((resolvePortList vm ps).2).lookupDim d = some h := by
  induction ps generalizing vm with
  | nil => simp [afind] at hf
  | cons p rest ih =>
      obtain ⟨k', po⟩ := p
      by_cases hk : k' = k
      · simp only [afind, hk, if_pos rfl] at hf
        injection hf with hf
        subst hf
        refine ⟨(vm.get_or_create d).1, ?_, ?_⟩
        · simp [resolvePortList, afind, hk]
        · simp only [resolvePortList]
          exact resolvePortList_mono rest (get_or_create_lookupDim vm d)
      · simp only [afind, hk, if_neg hk] at hf
        cases hb : po.binding with
        | dim dd =>
            obtain ⟨h, h1, h2⟩ := @ih (vm.get_or_create dd).2 hf
            exact ⟨h, by simp [resolvePortList, hb, afind, hk, h1], by
              simp only [resolvePortList, hb]
              exact h2⟩
        | vocab hh =>
            obtain ⟨h, h1, h2⟩ := @ih vm hf
            exact ⟨h, by simp [resolvePortList, hb, afind, hk, h1], by
              simp only [resolvePortList, hb]
              exact h2⟩

theorem resolvePortList_keep {vm : VocabularyMap} {ps : List (String × Port)}
    {k : String} {p : Port} (hf : afind ps k = some p)
    (hnb : ∀ d, p.binding ≠ .dim d) :
    afind (resolvePortList vm ps).1 k = some p := by
  induction ps generalizing vm with
  | nil => simp [afind] at hf
  | cons q rest ih =>
      obtain ⟨k', po⟩ := q
      by_cases hk : k' = k
      · simp only [afind, hk, if_pos rfl] at hf
        injection hf with hf
        subst hf
        cases hb : po.binding with
        | dim dd => exact absurd hb (hnb dd)
        | vocab hh => simp [resolvePortList, hb, afind, hk]
      · simp only [afind, hk, if_neg hk] at hf
        cases hb : po.binding with
        | dim dd => simp [resolvePortList, hb, afind, hk, ih hf]
        | vocab hh => simp [resolvePortList, hb, afind, hk, ih hf]

theorem firstUnregistered_isSome {regs : List Nat}
    {nets : List (Nat ⊕ Module)} {Q : Module}
    (hm : Sum.inr Q ∈ nets) (hn : Q.uid ∉ regs) :
    (firstUnregistered regs nets).isSome := by
  induction nets with
  | nil => simp at hm
  | cons net rest ih =>
      cases net with
      | inl i =>
          simp only [List.mem_cons] at hm
          rcases hm with h | h
          · exact absurd h (by simp)
          · simpa [firstUnregistered] using ih h
      | inr q =>
          simp only [List.mem_cons] at hm
          rcases hm with h | h
          · have hq : q = Q := by injection h.symm
            subst hq
            simp [firstUnregistered, hn]
          · by_cases hu : q.uid ∈ regs
            · simpa [firstUnregistered, hu] using ih h
            · simp [firstUnregistered, hu]

theorem get_module_input_dotted {A child : Module} {h t : String}
    (hd : '.' ∉ h.data) (hc : afind A.modules h = some child) :
    A.get_module_input (h ++ "." ++ t) = child.get_module_input t := by
  rw [Module.get_module_input.eq_def, splitDot_cat h t hd]
  dsimp only
  split
  next child' heq =>
      rw [hc] at heq
      injection heq with heq
      rw [heq]
  next heq => rw [hc] at heq; cases heq

theorem get_module_input_dotted_miss {A : Module} {h t : String}
    (hd : '.' ∉ h.data) (hc : afind A.modules h = none) :
    A.get_module_input (h ++ "." ++ t)
      = .error (.inputNotFound (h ++ "." ++ t)) := by
  rw [Module.get_module_input.eq_def, splitDot_cat h t hd]
  dsimp only
  split
  next child' heq => rw [hc] at heq; cases heq
  next heq => rfl

theorem get_module_output_dotted {A child : Module} {h t : String}
    (hd : '.' ∉ h.data) (hc : afind A.modules h = some child) :
    A.get_module_output (h ++ "." ++ t) = child.get_module_output t := by
  rw [Module.get_module_output.eq_def, splitDot_cat h t hd]
  dsimp only
  split
  next child' heq =>
      rw [hc] at heq
      injection heq with heq
      rw [heq]
  next heq => rw [hc] at heq; cases heq

theorem get_module_output_dotted_miss {A : Module} {h t : String}
    (hd : '.' ∉ h.data) (hc : afind A.modules h = none) :
    A.get_module_output (h ++ "." ++ t)
      = .error (.outputNotFound (h ++ "." ++ t)) := by
  rw [Module.get_module_output.eq_def, splitDot_cat h t hd]
  dsimp only
  split
  next child' heq => rw [hc] at heq; cases heq
  next heq => rfl

theorem get_module_input_own_port {m : Module} {name : String} {p : Port}
    (hd : '.' ∉ name.data) (hi : afind m.inputs name = some p) :
    m.get_module_input name = .ok (p, 0) := by
  rw [Module.get_module_input.eq_def, splitDot_of_no_dot hd]
  dsimp only
  rw [hi]

theorem get_module_output_own_port {m : Module} {name : String} {p : Port}
    (hd : '.' ∉ name.data) (ho : afind m.outputs name = some p) :
    m.get_module_output name = .ok (p, 0) := by
  rw [Module.get_module_output.eq_def, splitDot_of_no_dot hd]
  dsimp only
  rw [ho]

theorem get_module_input_bare_child {m child : Module} {name : String}
    (hd : '.' ∉ name.data) (hi : afind m.inputs name = none)
    (hc : afind m.modules name = some child) :
    m.get_module_input name = child.get_module_input "default" := by
  rw [Module.get_module_input.eq_def, splitDot_of_no_dot hd]
  dsimp only
  rw [hi]
  dsimp only
  split
  next child' heq =>
      rw [hc] at heq
      injection heq with heq
      rw [heq]
  next heq => rw [hc] at heq; cases heq

theorem get_module_output_bare_child {m child : Module} {name : String}
    (hd : '.' ∉ name.data) (ho : afind m.outputs name = none)
    (hc : afind m.modules name = some child) :
    m.get_module_output name = child.get_module_output "default" := by
  rw [Module.get_module_output.eq_def, splitDot_of_no_dot hd]
  dsimp only
  rw [ho]
  dsimp only
  split
  next child' heq =>
      rw [hc] at heq
      injection heq with heq
      rw [heq]
  next heq => rw [hc] at heq; cases heq

theorem get_module_input_underscore {m child : Module}
    {name head tail : String}
    (hd : '.' ∉ name.data) (hi : afind m.inputs name = none)
    (hc : afind m.modules name = none)
    (hs : splitLastUnderscore name = some (head, tail))
    (hch : afind m.modules head = some child) :
    m.get_module_input name
      = match child.get_module_input tail with
        | .ok (p, w) => .ok (p, w + 1)
        | .error e => .error e := by
  rw [Module.get_module_input.eq_def, splitDot_of_no_dot hd]
  dsimp only
  rw [hi]
  dsimp only
  split
  next child' heq => rw [hc] at heq; cases heq
  next heq =>
      rw [hs]
      dsimp only
      split
      next child' heq2 =>
          rw [hch] at heq2
          injection heq2 with heq2
          rw [heq2]
      next heq2 => rw [hch] at heq2; cases heq2

theorem get_module_output_underscore {m child : Module}
    {name head tail : String}
    (hd : '.' ∉ name.data) (ho : afind m.outputs name = none)
    (hc : afind m.modules name = none)
    (hs : splitLastUnderscore name = some (head, tail))
    (hch : afind m.modules head = some child) :
    m.get_module_output name
      = match child.get_module_output tail with
        | .ok (p, w) => .ok (p, w + 1)
        | .error e => .error e := by
  rw [Module.get_module_output.eq_def, splitDot_of_no_dot hd]
  dsimp only
  rw [ho]
  dsimp only
  split
  next child' heq => rw [hc] at heq; cases heq
  next heq =>
      rw [hs]
      dsimp only
      split
      next child' heq2 =>
          rw [hch] at heq2
          injection heq2 with heq2
          rw [heq2]
      next heq2 => rw [hch] at heq2; cases heq2

theorem get_module_input_no_match {m : Module} {name : String}
    (hd : '.' ∉ name.data) (hu : '_' ∉ name.data)
    (hi : afind m.inputs name = none) (hc : afind m.modules name = none) :
    m.get_module_input name = .error (.inputNotFound name) := by
  rw [Module.get_module_input.eq_def, splitDot_of_no_dot hd]
  dsimp only
  rw [hi]
  dsimp only
  split
  next child' heq => rw [hc] at heq; cases heq
  next heq =>
      rw [splitLastUnderscore_of_no_underscore hu]

theorem get_module_output_no_match {m : Module} {name : String}
    (hd : '.' ∉ name.data) (hu : '_' ∉ name.data)
    (ho : afind m.outputs name = none) (hc : afind m.modules name = none) :
    m.get_module_output name = .error (.outputNotFound name) := by
  rw [Module.get_module_output.eq_def, splitDot_of_no_dot hd]
  dsimp only
  rw [ho]
  dsimp only
  split
  next child' heq => rw [hc] at heq; cases heq
  next heq =>
      rw [splitLastUnderscore_of_no_underscore hu]

theorem get_module_dotted {A child : Module} {h t : String} {strip : Bool}
    (hd : '.' ∉ h.data) (hc : afind A.modules h = some child) :
    A.get_module (h ++ "." ++ t) strip = child.get_module t strip := by
  rw [Module.get_module.eq_def, splitDot_cat h t hd]
  dsimp only
  split
  next child' heq =>
      rw [hc] at heq
      injection heq with heq
      rw [heq]
  next heq => rw [hc] at heq; cases heq

theorem get_module_dotted_miss {A : Module} {h t : String} {strip : Bool}
    (hd : '.' ∉ h.data) (hc : afind A.modules h = none) :
    A.get_module (h ++ "." ++ t) strip
      = .error (.moduleNotFound (h ++ "." ++ t)) := by
  rw [Module.get_module.eq_def, splitDot_cat h t hd]
  dsimp only
  split
  next child' heq => rw [hc] at heq; cases heq
  next heq => rfl

theorem get_module_leaf_miss {m : Module} {name : String} {strip : Bool}
    (hd : '.' ∉ name.data) (hc : afind m.modules name = none)
    (hi : afind m.inputs name = none) (ho : afind m.outputs name = none) :
    m.get_module name strip = .error (.moduleNotFound name) := by
  rw [Module.get_module.eq_def, splitDot_of_no_dot hd]
  dsimp only
  split
  next child' heq => rw [hc] at heq; cases heq
  next heq => simp [hi, ho]

/-- Small helper: a character missing from both halves is missing from
their concatenation. -/
theorem not_mem_data_cat {ch : Char} {a b : String}
    (ha : ch ∉ a.data) (hb : ch ∉ b.data) : ch ∉ (a ++ b).data := by
  simp [String.data_append, ha, hb]

/-- Concrete instance for C1: a fresh unlabelled module to be registered. -/
def W1m1 : Module := .mk 1 none ⟨[], 0⟩ [] [] [] []

/-- Concrete instance for C1: an empty parent module. -/
def W1P0 : Module := .mk 0 none ⟨[], 0⟩ [] [] [] []

/-- Concrete instance for C1: the registered child (label set to "m"). -/
def W1child : Module := .mk 1 (some "m") ⟨[], 0⟩ [] [] [] []

/-- Concrete instance for C1: the parent after registering `W1m1` as "m". -/
def W1P : Module := .mk 0 none ⟨[], 0⟩ [("m", W1child)] [] [] []

/-- Concrete instance for C2: a child with a raw-dimension input, a resolved
input, a raw-dimension output, and its own (distinct) vocabulary map. -/
def W2v : Module :=
  .mk 2 (some "v") ⟨[(7, 70)], 100⟩ []
    [("default", ⟨1, .dim 4⟩), ("x", ⟨2, .vocab 70⟩)]
    [("out", ⟨3, .dim 5⟩)] []

/-- Concrete instance for C2: a parent whose map already holds dimension 4
with handle 9 and whose next fresh handle is 10. -/
def W2P : Module := .mk 0 none ⟨[(4, 9)], 10⟩ [] [] [] []

/-- Concrete instance for C2: the child after registration — dimension 4
resolved to the parent's existing handle 9, dimension 5 to the parent's
fresh handle 10, the resolved binding 70 untouched. -/
def W2child : Module :=
  .mk 2 (some "v") ⟨[(7, 70)], 100⟩ []
    [("default", ⟨1, .vocab 9⟩), ("x", ⟨2, .vocab 70⟩)]
    [("out", ⟨3, .vocab 10⟩)] []

/-- Concrete instance for C2: the parent after registration. -/
def W2P' : Module :=
  .mk 0 none ⟨[(4, 9), (5, 10)], 11⟩ [("v", W2child)] [] [] []

/-- Concrete instance for C2: the observed `on_add` call. -/
def W2call : OnAddCall := ⟨W2P', W2child⟩

/-- Concrete instance for C3: a module-typed nested network that is never
registered. -/
def W3Q : Module := .mk 5 none ⟨[], 0⟩ [] [] [] []

/-- Concrete instance for C3: a parent whose networks list contains a plain
network and the unregistered module `W3Q`, with an empty registry. -/
def W3P : Module := .mk 4 none ⟨[], 0⟩ [] [] [] [.inl 3, .inr W3Q]

/-- Concrete instance for C4: child "B" with input and output ports "X". -/
def W4B : Module :=
  .mk 11 (some "B") ⟨[], 0⟩ [] [("X", ⟨21, .vocab 2⟩)]
    [("X", ⟨22, .vocab 2⟩)] []

/-- Concrete instance for C4: parent containing registered child "B". -/
def W4A : Module := .mk 10 none ⟨[], 0⟩ [("B", W4B)] [] [] []

/-- Concrete instance for C5: child "M" whose only output port is
"default". -/
def W5M : Module :=
  .mk 31 (some "M") ⟨[], 0⟩ [] [] [("default", ⟨41, .vocab 3⟩)] []

/-- Concrete instance for C5: parent containing registered child "M". -/
def W5A : Module := .mk 30 none ⟨[], 0⟩ [("M", W5M)] [] [] []

/-- Concrete instance for C6 (counterexample): child "B" with no ports and
no children. -/
def C6B : Module := .mk 81 (some "B") ⟨[], 0⟩ [] [] [] []

/-- Concrete instance for C6 (counterexample): parent containing "B". -/
def C6A : Module := .mk 80 none ⟨[], 0⟩ [("B", C6B)] [] [] []

/-- Concrete instance for C6 (witness): child module. -/
def W6D : Module := .mk 83 none ⟨[], 0⟩ [] [] [] []

/-- Concrete instance for C6 (witness): parent containing child "D". -/
def W6C : Module := .mk 82 none ⟨[], 0⟩ [("D", W6D)] [] [] []

/-- Concrete instance for C7: first child, one input port "default". -/
def W7M1 : Module := .mk 51 none ⟨[], 0⟩ [] [("default", ⟨1, .vocab 1⟩)] [] []

/-- Concrete instance for C7: second child, input ports "a" then "b". -/
def W7M2 : Module :=
  .mk 52 none ⟨[], 0⟩ [] [("a", ⟨2, .vocab 1⟩), ("b", ⟨3, .vocab 1⟩)] [] []

/-- Concrete instance for C7: parent with children "m1" then "m2". -/
def W7P : Module := .mk 50 none ⟨[], 0⟩ [("m1", W7M1), ("m2", W7M2)] [] [] []

/-- Concrete instance for C8: a module with no ports and no children. -/
def W8P : Module := .mk 60 none ⟨[], 0⟩ [] [] [] []

/-- Concrete instance for C10: a module with no ports and no children. -/
def W10P : Module := .mk 70 none ⟨[], 0⟩ [] [] [] []

/-- Claim C1: once a module `m1` has been registered on a parent under the
name `n` by attribute assignment, any later attribute assignment of `n` on
the resulting parent — regardless of the new value — raises the reassignment
`SpaModuleError`, and the parent's child registry still maps `n` to the
registered module (same object identity as `m1`); the failing call returns
no new state, so the registry entry is unchanged. -/
theorem C1_single_assignment (P0 P : Module) (n : String) (m1 : Module)
    (c : Option OnAddCall)
    (hreg : P0.setattr n (.mod m1) = .ok (P, c)) :
    (∀ v : AttrValue, P.setattr n v = .error (.reassignment n)) ∧
    (∃ m', afind P.modules n = some m' ∧ m'.uid = m1.uid) := by
  unfold Module.setattr at hreg
  by_cases h0 : (afind P0.modules n).isSome
  · rw [if_pos h0] at hreg
    simp at hreg
  · rw [if_neg h0] at hreg
    dsimp only at hreg
    injection hreg with hreg
    have hP : (P0.set_module n m1).1 = P := congrArg Prod.fst hreg
    subst hP
    constructor
    · intro v
      unfold Module.setattr
      rw [if_pos (by simp [Module.set_module, afind_aupsert_self])]
    · refine ⟨(P0.set_module n m1).2.child, ?_, ?_⟩
      · simp [Module.set_module, afind_aupsert_self]
      · simp [Module.set_module, apply_ite Module.uid]

/-- Witness for C1 at a concrete parent and child. -/
theorem C1_witness :
    (W1P.setattr "m" (.plain 7) = .error (.reassignment "m")) ∧
    (∃ m', afind W1P.modules "m" = some m' ∧ m'.uid = W1m1.uid) := by
  have h := C1_single_assignment W1P0 W1P "m" W1m1 (some ⟨W1P, W1child⟩) rfl
  exact ⟨h.1 (.plain 7), h.2⟩

/-- Claim C2: at registration of child `v` on parent `P` under `n`, every
input or output port of `v` whose binding is a raw integer `d` is replaced
by the handle that the parent's vocabulary map holds for `d` afterwards
(obtained by `get_or_create` on the parent's map), bindings that are not raw
integers are left unchanged, the child's own vocabulary map is untouched,
and the `on_add` hook observes the child already inserted in the registry
with all bindings resolved (the registration post-state equals the state at
the hook). -/
theorem C2_registration_resolution (P : Module) (n : String) (v P' : Module)
    (call : OnAddCall)
    (hreg : P.setattr n (.mod v) = .ok (P', some call)) :
    (∀ k o d, afind v.inputs k = some ⟨o, .dim d⟩ →
        ∃ h, afind call.child.inputs k = some ⟨o, .vocab h⟩ ∧
             P'.vocabs.lookupDim d = some h) ∧
    (∀ k p, afind v.inputs k = some p → (∀ d, p.binding ≠ .dim d) →
        afind call.child.inputs k = some p) ∧
    (∀ k o d, afind v.outputs k = some ⟨o, .dim d⟩ →
        ∃ h, afind call.child.outputs k = some ⟨o, .vocab h⟩ ∧
             P'.vocabs.lookupDim d = some h) ∧
    (∀ k p, afind v.outputs k = some p → (∀ d, p.binding ≠ .dim d) →
        afind call.child.outputs k = some p) ∧
    call.child.vocabs = v.vocabs ∧
    afind call.parent.modules n = some call.child ∧
    call.parent = P' := by
  unfold Module.setattr at hreg
  by_cases h0 : (afind P.modules n).isSome
  · rw [if_pos h0] at hreg
    simp at hreg
  · rw [if_neg h0] at hreg
    dsimp only at hreg
    injection hreg with hreg
    have hP : (P.set_module n v).1 = P' := congrArg Prod.fst hreg
    have hcall : some (P.set_module n v).2 = some call :=
      congrArg Prod.snd hreg
    injection hcall with hcall
    subst hP
    subst hcall
    have hlin : (if v.label = none then v.withLabel (some n) else v).inputs
        = v.inputs := by split <;> simp
    have hlout : (if v.label = none then v.withLabel (some n) else v).outputs
        = v.outputs := by split <;> simp
    have hlvoc : (if v.label = none then v.withLabel (some n) else v).vocabs
        = v.vocabs := by split <;> simp
    refine ⟨?_, ?_, ?_, ?_, ?_, ?_, ?_⟩
    · intro k o d hk
      obtain ⟨h, h1, h2⟩ := @resolvePortList_dim P.vocabs _ _ _ _ hk
      refine ⟨h, ?_, ?_⟩
      · simp [Module.set_module, hlin, h1]
      · simp only [Module.set_module]
        simp [hlin, hlout]
        exact resolvePortList_mono v.outputs h2
    · intro k p hk hnb
      simp [Module.set_module, hlin]
      exact resolvePortList_keep hk hnb
    · intro k o d hk
      obtain ⟨h, h1, h2⟩ :=
        @resolvePortList_dim (resolvePortList P.vocabs v.inputs).2 _ _ _ _ hk
      refine ⟨h, ?_, ?_⟩
      · simp [Module.set_module, hlin, hlout, h1]
      · simp only [Module.set_module]
        simp [hlin, hlout]
        exact h2
    · intro k p hk hnb
      simp [Module.set_module, hlin, hlout]
      exact resolvePortList_keep hk hnb
    · simp [Module.set_module, hlvoc]
    · simp [Module.set_module, afind_aupsert_self]
    · simp [Module.set_module]

/-- Witness for C2 at a concrete parent and child: dimension 4 resolves to
the parent's pre-existing handle 9, dimension 5 to the parent's fresh handle
10, the already-resolved binding 70 is kept, the child's map is untouched,
and the hook sees the inserted, fully resolved child. -/
theorem C2_witness :
    (∃ h, afind W2call.child.inputs "default" = some ⟨1, .vocab h⟩ ∧
          W2P'.vocabs.lookupDim 4 = some h) ∧
    afind W2call.child.inputs "x" = some ⟨2, .vocab 70⟩ ∧
    (∃ h, afind W2call.child.outputs "out" = some ⟨3, .vocab h⟩ ∧
          W2P'.vocabs.lookupDim 5 = some h) ∧
    W2call.child.vocabs = W2v.vocabs ∧
    afind W2call.parent.modules "v" = some W2call.child ∧
    W2call.parent = W2P' := by
  have h := C2_registration_resolution W2P "v" W2v W2P' W2call rfl
  exact ⟨h.1 "default" 1 4 rfl,
         h.2.1 "x" ⟨2, .vocab 70⟩ rfl (fun d hd => by cases hd),
         h.2.2.1 "out" 3 5 rfl,
         h.2.2.2.2.1,
         h.2.2.2.2.2.1,
         h.2.2.2.2.2.2⟩

/-- Claim C3: when a module's construction scope closes with an in-flight
exception, the structural check is skipped and the original exception
propagates unchanged; when it closes cleanly and some module-typed network
nested in `P.networks` is not identity-present among the registered
children, the structural `SpaModuleError` is raised. -/
theorem C3_structural_validation (P : Module) :
    (∀ e, P.exit (some e) = some e) ∧
    (∀ Q, Sum.inr Q ∈ P.networks → Q.uid ∉ registeredUids P.modules →
        ∃ u, P.exit none = some (.spa (.mustBeSet u))) := by
  constructor
  · intro e
    rfl
  · intro Q hm hn
    have hs := firstUnregistered_isSome hm hn
    cases hfu : firstUnregistered (registeredUids P.modules) P.networks with
    | some q =>
        refine ⟨q.uid, ?_⟩
        unfold Module.exit
        dsimp only
        rw [hfu]
    | none =>
        rw [hfu] at hs
        cases hs

/-- Witness for C3: a concrete scope with one unregistered nested module —
an in-flight exception propagates unchanged, a clean close raises the
structural error. -/
theorem C3_witness :
    W3P.exit (some (.other 2)) = some (.other 2) ∧
    (∃ u, W3P.exit none = some (.spa (.mustBeSet u))) := by
  have h := C3_structural_validation W3P
  exact ⟨h.1 (.other 2),
         h.2 W3Q (by simp [W3P, Module.networks])
           (by simp [W3P, Module.modules, registeredUids])⟩

/-- Claim C4: for a parent `A` with a registered child `B` under a dot-free
name, resolving the dotted path through `A` equals resolving the remainder
directly on `B`, for outputs and for inputs alike. -/
theorem C4_dotted_equals_child (A B : Module) (c x : String)
    (hd : '.' ∉ c.data) (hB : afind A.modules c = some B) :
    A.get_module_output (c ++ "." ++ x) = B.get_module_output x ∧
    A.get_module_input (c ++ "." ++ x) = B.get_module_input x :=
  ⟨get_module_output_dotted hd hB, get_module_input_dotted hd hB⟩

/-- Witness for C4 at a concrete two-level module tree. -/
theorem C4_witness :
    W4A.get_module_output "B.X" = W4B.get_module_output "X" ∧
    W4A.get_module_input "B.X" = W4B.get_module_input "X" :=
  C4_dotted_equals_child W4A W4B "B" "X" (by decide) rfl

/-- Claim C5: for a parent `A` with a registered child under a dot-free name
`mname` whose only output port is `"default"`, and whose own outputs and
registry do not capture the concatenated name, `A.get_module_output
(mname ++ "_default")` returns the same port as `A.get_module_output mname`
but with one deprecation diagnostic emitted, while the bare-name resolution
emits none; the fallback splits at the last underscore only (here: the
separator before `"default"`, whatever underscores `mname` contains) and
runs only after the own-port and bare-child-name strategies fail (the
`hA1`/`hA2` misses). -/
theorem C5_underscore_fallback (A M : Module) (mname : String) (p : Port)
    (hd : '.' ∉ mname.data)
    (hA1 : afind A.outputs (mname ++ "_" ++ "default") = none)
    (hA2 : afind A.modules (mname ++ "_" ++ "default") = none)
    (hA3 : afind A.outputs mname = none)
    (hM : afind A.modules mname = some M)
    (hMout : M.outputs = [("default", p)]) :
    A.get_module_output (mname ++ "_" ++ "default") = .ok (p, 1) ∧
    A.get_module_output mname = .ok (p, 0) := by
  have hdefault : M.get_module_output "default" = .ok (p, 0) :=
    get_module_output_own_port (by decide)
      (by rw [hMout]; simp [afind])
  constructor
  · have hdd : '.' ∉ (mname ++ "_" ++ "default").data :=
      not_mem_data_cat (not_mem_data_cat hd (by decide)) (by decide)
    have hsplit := splitLastUnderscore_cat mname "default" (by decide)
    rw [get_module_output_underscore hdd hA1 hA2 hsplit hM, hdefault]
  · rw [get_module_output_bare_child hd hA3 hM, hdefault]

/-- Witness for C5 at a concrete parent with child "M". -/
theorem C5_witness :
    W5A.get_module_output "M_default" = .ok (⟨41, .vocab 3⟩, 1) ∧
    W5A.get_module_output "M" = .ok (⟨41, .vocab 3⟩, 0) :=
  C5_underscore_fallback W5A W5M "M" ⟨41, .vocab 3⟩ (by decide)
    rfl rfl rfl rfl rfl

/-- Counterexample for C6 as stated: `A.get_module_input "B.nope"` on a
parent whose child "B" has no port "nope" raises the domain error naming
only the remainder `"nope"`, not the originally requested path `"B.nope"` —
the recursive call's `SpaModuleError` is not a `KeyError` and therefore
propagates out of the outer call unchanged. -/
theorem C6_counterexample :
    C6A.get_module_input "B.nope" = .error (.inputNotFound "nope") ∧
    SpaError.inputNotFound "nope" ≠ SpaError.inputNotFound "B.nope" := by
  constructor
  · have h1 : C6A.get_module_input ("B" ++ "." ++ "nope")
        = C6B.get_module_input "nope" :=
      get_module_input_dotted (by decide) rfl
    have h2 : C6B.get_module_input "nope"
        = .error (.inputNotFound "nope") :=
      get_module_input_no_match (by decide) (by decide) rfl rfl
    exact h1.trans h2
  · decide

/-- Claim C6 (amended): for all three resolvers — `get_module`
(ModuleNotFoundError), `get_module_input` and `get_module_output`
(PortNotFoundError) — the raised domain error carries the path string
passed to the resolution call in which the lookup miss occurs: a missing
head child is reported with the full name given to the current call, while
a failure inside a recursive call on a child returns that call's result —
and hence its error payload, carrying only the remainder that was passed to
the child — unchanged, not the caller's original path. -/
theorem C6_error_payload_per_level (A c : Module) (h t : String)
    (hd : '.' ∉ h.data) :
    (afind A.modules h = some c →
        (∀ strip, A.get_module (h ++ "." ++ t) strip
            = c.get_module t strip) ∧
        A.get_module_input (h ++ "." ++ t) = c.get_module_input t ∧
        A.get_module_output (h ++ "." ++ t) = c.get_module_output t) ∧
    (afind A.modules h = none →
        (∀ strip, A.get_module (h ++ "." ++ t) strip
            = .error (.moduleNotFound (h ++ "." ++ t))) ∧
        A.get_module_input (h ++ "." ++ t)
          = .error (.inputNotFound (h ++ "." ++ t)) ∧
        A.get_module_output (h ++ "." ++ t)
          = .error (.outputNotFound (h ++ "." ++ t))) :=
  ⟨fun hc => ⟨fun _ => get_module_dotted hd hc,
              get_module_input_dotted hd hc,
              get_module_output_dotted hd hc⟩,
   fun hc => ⟨fun _ => get_module_dotted_miss hd hc,
              get_module_input_dotted_miss hd hc,
              get_module_output_dotted_miss hd hc⟩⟩

/-- Witness for the amended C6: with child "D" present each resolver
returns the inner call's result (and hence its error payload) as-is; with
head "E" absent each resolver's error carries the full dotted path. -/
theorem C6_witness :
    (W6C.get_module "D.z" false = W6D.get_module "z" false ∧
     W6C.get_module_input "D.z" = W6D.get_module_input "z" ∧
     W6C.get_module_output "D.z" = W6D.get_module_output "z") ∧
    (W6C.get_module "E.z" false = .error (.moduleNotFound "E.z") ∧
     W6C.get_module_input "E.z" = .error (.inputNotFound "E.z") ∧
     W6C.get_module_output "E.z" = .error (.outputNotFound "E.z")) := by
  have hp := (C6_error_payload_per_level W6C W6D "D" "z" (by decide)).1 rfl
  have hm := (C6_error_payload_per_level W6C W6D "E" "z" (by decide)).2 rfl
  exact ⟨⟨hp.1 false, hp.2.1, hp.2.2⟩, ⟨hm.1 false, hm.2.1, hm.2.2⟩⟩

/-- Claim C7: for a parent whose registry holds, in order, "m1" with input
ports {"default"} and "m2" with input ports {"a", "b"}, the input
enumeration yields exactly ["m1", "m2_a", "m2_b"] — the child name verbatim
for a port named "default", the underscore concatenation otherwise, never a
dot-form name. -/
theorem C7_input_enumeration (P M1 M2 : Module) (p q r : Port)
    (hmods : P.modules = [("m1", M1), ("m2", M2)])
    (h1 : M1.inputs = [("default", p)])
    (h2 : M2.inputs = [("a", q), ("b", r)]) :
    P.get_module_inputs = ["m1", "m2_a", "m2_b"] := by
  simp [Module.get_module_inputs, Module.get_module_inputs.enum,
        hmods, h1, h2, portEnumNames]

/-- Witness for C7 at a concrete parent. -/
theorem C7_witness : W7P.get_module_inputs = ["m1", "m2_a", "m2_b"] :=
  C7_input_enumeration W7P W7M1 W7M2 ⟨1, .vocab 1⟩ ⟨2, .vocab 1⟩
    ⟨3, .vocab 1⟩ rfl rfl rfl

/-- Claim C8: a single-segment name that matches no input port, no
registered child, and contains no underscore to split on resolves to the
terminal `SpaModuleError` for inputs — the deprecated-underscore fallback
does not raise on its own account when the split is impossible. -/
theorem C8_terminal_port_error (P : Module) (s : String)
    (hd : '.' ∉ s.data) (hu : '_' ∉ s.data)
    (hi : afind P.inputs s = none) (hc : afind P.modules s = none) :
    P.get_module_input s = .error (.inputNotFound s) :=
  get_module_input_no_match hd hu hi hc

/-- Witness for C8 at a concrete empty module. -/
theorem C8_witness :
    W8P.get_module_input "nonexistent" = .error (.inputNotFound "nonexistent") :=
  C8_terminal_port_error W8P "nonexistent" (by decide) (by decide) rfl rfl

/-- Claim C9: the resolution operations mutate nothing — in the
state-threaded renderings of `get_module`, `get_module_input`,
`get_module_output`, `get_input_vocab` and `get_output_vocab`, the module
tree coming back is the module tree passed in, on success and on failure
alike. -/
theorem C9_resolution_is_pure (m : Module) (name : String) (strip : Bool) :
    (m.get_module_st name strip).2 = m ∧
    (m.get_module_input_st name).2 = m ∧
    (m.get_module_output_st name).2 = m ∧
    (m.get_input_vocab_st name).2 = m ∧
    (m.get_output_vocab_st name).2 = m := by
  refine ⟨?_, ?_, ?_, ?_, ?_⟩ <;>
    simp [get_module_st_frame, get_module_input_st_frame,
          get_module_output_st_frame, Module.get_input_vocab_st,
          Module.get_output_vocab_st]

/-- Claim C10: the empty-string path is a single unresolvable leaf segment —
on a module that has no empty-named child or port, all three resolution
entry points fail with their own domain error carrying the empty path. -/
theorem C10_empty_path (P : Module) (strip : Bool)
    (hc : afind P.modules "" = none) (hi : afind P.inputs "" = none)
    (ho : afind P.outputs "" = none) :
    P.get_module "" strip = .error (.moduleNotFound "") ∧
    P.get_module_input "" = .error (.inputNotFound "") ∧
    P.get_module_output "" = .error (.outputNotFound "") :=
  ⟨get_module_leaf_miss (by decide) hc hi ho,
   get_module_input_no_match (by decide) (by decide) hi hc,
   get_module_output_no_match (by decide) (by decide) ho hc⟩

/-- Witness for C10 at a concrete empty module (with `strip = false`, the
source's default). -/
theorem C10_witness :
    W10P.get_module "" false = .error (.moduleNotFound "") ∧
    W10P.get_module_input "" = .error (.inputNotFound "") ∧
    W10P.get_module_output "" = .error (.outputNotFound "") :=
  C10_empty_path W10P false rfl rfl rfl

end Spa
